import Mathlib

/-!
Verification development for the Harmonix audio-splitter repository.

It shallowly embeds the shared content library (`src/harmonix_splitter/library.py`)
and the job-orchestration parts of `src/harmonix_splitter/dashboard.py`:
the filesystem layout that the library reads and writes is modelled as
explicit association lists, timestamps are abstract naturals passed in
by the caller, and each Python function becomes a pure Lean function on
that state.  Theorems at the end settle the frozen claims.
-/

set_option maxRecDepth 8192

namespace Harmonix

/-! ## Association-list helpers (modelling Python dicts keyed by strings) -/

def alookup {α : Type} : List (String × α) → String → Option α
  | [], _ => none
  | (k', v) :: rest, k => if k' = k then some v else alookup rest k

def aerase {α : Type} (l : List (String × α)) (k : String) : List (String × α) :=
  l.filter (fun p => p.1 ≠ k)

def aset {α : Type} (l : List (String × α)) (k : String) (v : α) : List (String × α) :=
  (k, v) :: aerase l k

theorem alookup_aset {α : Type} (l : List (String × α)) (k : String) (v : α) :
    alookup (aset l k v) k = some v := by
  simp [aset, alookup]

theorem aerase_cons {α : Type} (p : String × α) (rest : List (String × α)) (k : String) :
    aerase (p :: rest) k = if p.1 = k then aerase rest k else p :: aerase rest k := by
  by_cases hp : p.1 = k <;> simp [aerase, hp]

theorem alookup_aerase_ne {α : Type} (l : List (String × α)) (k k' : String)
    (h : k ≠ k') : alookup (aerase l k) k' = alookup l k' := by
  induction l with
  | nil => rfl
  | cons p rest ih =>
    rw [aerase_cons]
    by_cases hp : p.1 = k
    · have hpk' : ¬p.1 = k' := by rw [hp]; exact h
      simp [hp, alookup, hpk', ih, h]
    · simp only [hp, if_neg, alookup]
      by_cases hk' : p.1 = k' <;> simp [hk', ih]

theorem alookup_aset_ne {α : Type} (l : List (String × α)) (k k' : String) (v : α)
    (h : k ≠ k') : alookup (aset l k v) k' = alookup l k' := by
  simp only [aset, alookup, h, if_neg]
  exact alookup_aerase_ne l k k' h

theorem aerase_of_not_mem {α : Type} (l : List (String × α)) (k : String)
    (h : alookup l k = none) : aerase l k = l := by
  induction l with
  | nil => rfl
  | cons p rest ih =>
    simp only [alookup] at h
    by_cases hp : p.1 = k
    · simp [hp] at h
    · simp only [hp, if_neg] at h
      simp [aerase, hp, List.filter] at ih ⊢
      exact ih h

theorem alookup_eq_none_of_keys {α : Type} (l : List (String × α)) (k : String)
    (h : k ∉ l.map Prod.fst) : alookup l k = none := by
  induction l with
  | nil => rfl
  | cons p rest ih =>
    simp only [List.map, List.mem_cons] at h
    push_neg at h
    simp [alookup, Ne.symm h.1, ih h.2]

/-- With no-duplicate keys, a present binding can be split off. -/
theorem perm_aset_split {α : Type} (l : List (String × α)) (k : String) (w : α)
    (hnd : (l.map Prod.fst).Nodup) (h : alookup l k = some w) :
    l.Perm ((k, w) :: aerase l k) := by
  induction l with
  | nil => simp [alookup] at h
  | cons p rest ih =>
    obtain ⟨pk, pv⟩ := p
    simp only [List.map, List.nodup_cons] at hnd
    rw [aerase_cons]
    by_cases hp : pk = k
    · have hv : pv = w := by simpa [alookup, hp] using h
      have hk : k ∉ rest.map Prod.fst := hp ▸ hnd.1
      have he : aerase rest k = rest :=
        aerase_of_not_mem rest k (alookup_eq_none_of_keys rest k hk)
      simp [hp, hv, he]
    · have h' : alookup rest k = some w := by simpa [alookup, hp] using h
      have hperm := ih hnd.2 h'
      rw [if_neg hp]
      exact List.Perm.trans (List.Perm.cons _ hperm) (List.Perm.swap _ _ _)

theorem nodup_keys_aerase {α : Type} (l : List (String × α)) (k : String)
    (hnd : (l.map Prod.fst).Nodup) : ((aerase l k).map Prod.fst).Nodup := by
  have hsub : List.Sublist (aerase l k) l := List.filter_sublist l
  exact List.Nodup.sublist (List.Sublist.map Prod.fst hsub) hnd

theorem nodup_keys_aset {α : Type} (l : List (String × α)) (k : String) (v : α)
    (hnd : (l.map Prod.fst).Nodup) : ((aset l k v).map Prod.fst).Nodup := by
  have hnd' := nodup_keys_aerase l k hnd
  have hk : k ∉ (aerase l k).map Prod.fst := by
    intro hmem
    rcases List.mem_map.1 hmem with ⟨p, hp, hpk⟩
    have := List.of_mem_filter hp
    simp [hpk] at this
  simp [aset, List.nodup_cons, hk, hnd']

/-! ## Data model of the shared content library (`library.py`)

`metadata.json` of a library entry is a JSON object; the fields the code
reads and writes are modelled explicitly, each `Option` so that an absent
key is representable.  Timestamps (`datetime.now().isoformat()`) are
abstract naturals supplied by the caller. -/

structure LibMeta where
  usage_count : Option Nat := none
  created_at : Option Nat := none
  last_usage_update : Option Nat := none
  archived_at : Option Nat := none
  archive_reason : Option String := none
  restored_at : Option Nat := none
  youtube_id : Option String := none
  source_url : Option String := none
  quality : Option String := none
  mode : Option String := none
  display_name : Option String := none
  title : Option String := none
  duration : Option Nat := none
  music_info : Option String := none
  deriving Repr, DecidableEq

/-- An audio file `<base>_<stemType>.<ext>` inside a library folder;
`stemType` is the segment after the last underscore of the file stem. -/
structure LibFile where
  base : String
  stemType : String
  ext : String
  deriving Repr, DecidableEq

/-- One directory `data/library/<youtube_id>/`. -/
structure LibDir where
  meta : Option LibMeta := none
  files : List LibFile := []
  lyrics : Bool := false
  deriving Repr, DecidableEq

/-- Per-job link stored in a user's `library_links.json`
(`custom_data` at both call sites carries `source_url`/`quality`/`mode`). -/
structure LinkInfo where
  youtube_id : String
  display_name : Option String := none
  linked_at : Nat := 0
  is_library_link : Bool := true
  source_url : Option String := none
  quality : Option String := none
  mode : Option String := none
  deriving Repr, DecidableEq

structure LinksData where
  links : List (String × LinkInfo) := []
  created_at : Nat := 0
  updated_at : Option Nat := none
  deriving Repr, DecidableEq

/-- The filesystem state the library module touches: the active library
tree, the dated archive tree, and each user's `library_links.json`. -/
structure LibFS where
  lib : List (String × LibDir) := []
  archive : List (Nat × String × LibDir) := []
  users : List (String × LinksData) := []
  deriving Repr, DecidableEq

def emptyFS : LibFS := {}

/-! ## Operations of `library.py` -/

/-- `load_user_links`: parse the user's links file, or a fresh structure. -/
def load_user_links (fs : LibFS) (username : String) (now : Nat) : LinksData :=
  (alookup fs.users username).getD { links := [], created_at := now }

/-- `save_user_links`: stamp `updated_at` and write the file back. -/
def save_user_links (fs : LibFS) (username : String) (ld : LinksData) (now : Nat) : LibFS :=
  { fs with users := aset fs.users username { ld with updated_at := some now } }

/-- `get_library_metadata`: read `metadata.json` if it exists. -/
def get_library_metadata (fs : LibFS) (youtube_id : String) : Option LibMeta :=
  (alookup fs.lib youtube_id).bind (·.meta)

/-- `get_library_usage`: `metadata.get("usage_count", 0)`, `0` with no metadata. -/
def get_library_usage (fs : LibFS) (youtube_id : String) : Nat :=
  match get_library_metadata fs youtube_id with
  | some m => m.usage_count.getD 0
  | none => 0

/-- `update_library_usage`: read the metadata (an empty dict if the file is
missing), bump the counter with a floor of zero, and write the file back.
When the entry directory itself does not exist, `open(..., "w")` raises
`FileNotFoundError`, the `except` branch swallows it and returns `0` with
nothing written. -/
def update_library_usage (fs : LibFS) (youtube_id : String) (increment : Bool) (now : Nat) :
    LibFS × Nat :=
  match alookup fs.lib youtube_id with
  | none => (fs, 0)
  | some dir =>
    let m0 : LibMeta := dir.meta.getD {}
    let current := m0.usage_count.getD 0
    let newCount := if increment then current + 1 else current - 1
    let m1 := { m0 with usage_count := some newCount, last_usage_update := some now }
    ({ fs with lib := aset fs.lib youtube_id { dir with meta := some m1 } }, newCount)

/-- `link_to_user_library`: record the link under `job_id` in the user's
links file, then increment the entry's usage count; always returns `True`
(the usage update swallows its own failures). -/
def link_to_user_library (fs : LibFS) (username youtube_id job_id : String)
    (display_name : Option String) (source_url quality mode : Option String) (now : Nat) :
    LibFS × Bool :=
  let ld := load_user_links fs username now
  let info : LinkInfo :=
    { youtube_id := youtube_id, display_name := display_name, linked_at := now,
      is_library_link := true, source_url := source_url, quality := quality, mode := mode }
  let ld1 := { ld with links := aset ld.links job_id info }
  let fs1 := save_user_links fs username ld1 now
  ((update_library_usage fs1 youtube_id true now).1, true)

/-- `unlink_from_user_library`: pop the link keyed by `job_id` if present,
decrement the usage count when the popped link carries a (truthy)
`youtube_id`, and return that id. -/
def unlink_from_user_library (fs : LibFS) (username job_id : String) (now : Nat) :
    LibFS × Option String :=
  let ld := load_user_links fs username now
  match alookup ld.links job_id with
  | none => (fs, none)
  | some info =>
    let ld1 := { ld with links := aerase ld.links job_id }
    let fs1 := save_user_links fs username ld1 now
    if info.youtube_id = "" then (fs1, none)
    else ((update_library_usage fs1 info.youtube_id false now).1, some info.youtube_id)

/-- `create_library_entry`: `mkdir(exist_ok=True)` then overwrite
`metadata.json` with `usage_count = 0` merged with the caller's metadata
(`source_url`/`quality`/`mode` at the call site). -/
def create_library_entry (fs : LibFS) (youtube_id : String)
    (source_url quality mode : Option String) (now : Nat) : LibFS :=
  let dir := (alookup fs.lib youtube_id).getD {}
  let m : LibMeta :=
    { youtube_id := some youtube_id, created_at := some now, usage_count := some 0,
      source_url := source_url, quality := quality, mode := mode }
  { fs with lib := aset fs.lib youtube_id { dir with meta := some m } }

/-- `check_library_exists`: a hit needs `metadata.json` plus at least one
file matching `*_instrumental.*` or `*_vocals.*` (the loop breaks on the
first of the two that matches). -/
def check_library_exists (fs : LibFS) (youtube_id : String) : Option LibMeta :=
  match alookup fs.lib youtube_id with
  | none => none
  | some dir =>
    match dir.meta with
    | none => none
    | some m =>
      if dir.files.any (fun f => f.stemType == "instrumental")
          || dir.files.any (fun f => f.stemType == "vocals") then some m
      else none

/-- ASCII lower-casing of one character (what Python `.lower()` does on
the ASCII stem-type names the code compares). -/
def charLower (c : Char) : Char :=
  match c with
  | 'A' => 'a' | 'B' => 'b' | 'C' => 'c' | 'D' => 'd' | 'E' => 'e' | 'F' => 'f'
  | 'G' => 'g' | 'H' => 'h' | 'I' => 'i' | 'J' => 'j' | 'K' => 'k' | 'L' => 'l'
  | 'M' => 'm' | 'N' => 'n' | 'O' => 'o' | 'P' => 'p' | 'Q' => 'q' | 'R' => 'r'
  | 'S' => 's' | 'T' => 't' | 'U' => 'u' | 'V' => 'v' | 'W' => 'w' | 'X' => 'x'
  | 'Y' => 'y' | 'Z' => 'z' | c => c

def strLower (s : String) : String :=
  String.mk (s.data.map charLower)

def valid_stem_types : List String :=
  ["vocals", "drums", "bass", "guitar", "piano", "other",
   "instrumental", "synth", "strings", "melody",
   "accompaniment", "percussion", "lead", "background", "original"]

def libStemPath (youtube_id : String) (f : LibFile) : String :=
  "library/" ++ youtube_id ++ "/" ++ f.base ++ "_" ++ f.stemType ++ "." ++ f.ext

/-- `get_library_stems`: collect `*.mp3` stems first, then `*.wav` stems
that are not already present (MP3 preferred). -/
def get_library_stems (fs : LibFS) (youtube_id : String) : List (String × String) :=
  match alookup fs.lib youtube_id with
  | none => []
  | some dir =>
    let mp3s := dir.files.filter (fun f => f.ext == "mp3")
    let step1 := mp3s.foldl
      (fun acc f =>
        if valid_stem_types.contains (strLower f.stemType) then
          aset acc f.stemType (libStemPath youtube_id f)
        else acc) []
    let wavs := dir.files.filter (fun f => f.ext == "wav")
    wavs.foldl
      (fun acc f =>
        if valid_stem_types.contains (strLower f.stemType) && (alookup acc f.stemType).isNone then
          aset acc f.stemType (libStemPath youtube_id f)
        else acc) step1

/-- `archive_library_item`: refuse when the directory is missing or
`usage_count > 0`; otherwise stamp `archived_at`/`archive_reason` (when a
metadata file exists) and move the folder into that day's archive
partition. -/
def archive_library_item (fs : LibFS) (youtube_id : String) (reason : String) (now : Nat) :
    LibFS × Bool :=
  match alookup fs.lib youtube_id with
  | none => (fs, false)
  | some dir =>
    let blocked := match dir.meta with
      | some m => decide (0 < m.usage_count.getD 0)
      | none => false
    if blocked then (fs, false)
    else
      let dir1 := match dir.meta with
        | some m =>
          { dir with meta := some { m with archived_at := some now, archive_reason := some reason } }
        | none => dir
      ({ fs with lib := aerase fs.lib youtube_id,
                 archive := (now, youtube_id, dir1) :: fs.archive }, true)

/-! ## Counting live user-library links (for the reference-count law) -/

def countLinksTo (ytid : String) (ld : LinksData) : Nat :=
  ld.links.countP (fun q => q.2.youtube_id == ytid)

def liveLinks (fs : LibFS) (ytid : String) : Nat :=
  (fs.users.map (fun p => countLinksTo ytid p.2)).sum

/-- Well-formedness of the on-disk link files: no duplicate user files and
no duplicate job keys inside one file (what the dict-based JSON gives). -/
def UsersWF (fs : LibFS) : Prop :=
  (fs.users.map Prod.fst).Nodup ∧ ∀ p ∈ fs.users, (p.2.links.map Prod.fst).Nodup

theorem alookup_mem {α : Type} (l : List (String × α)) (k : String) (v : α)
    (h : alookup l k = some v) : (k, v) ∈ l := by
  induction l with
  | nil => simp [alookup] at h
  | cons p rest ih =>
    obtain ⟨pk, pv⟩ := p
    by_cases hp : pk = k
    · have hv : pv = v := by simpa [alookup, hp] using h
      simp [hp, hv]
    · have h' : alookup rest k = some v := by simpa [alookup, hp] using h
      exact List.mem_cons_of_mem _ (ih h')

theorem load_links_nodup (fs : LibFS) (u : String) (now : Nat) (h : UsersWF fs) :
    ((load_user_links fs u now).links.map Prod.fst).Nodup := by
  unfold load_user_links
  cases hl : alookup fs.users u with
  | none => simp
  | some ld => exact h.2 (u, ld) (alookup_mem _ _ _ hl)

theorem liveLinks_save (fs : LibFS) (u : String) (ld' : LinksData) (now : Nat) (ytid : String)
    (hnd : (fs.users.map Prod.fst).Nodup) :
    liveLinks (save_user_links fs u ld' now) ytid + countLinksTo ytid (load_user_links fs u now)
      = liveLinks fs ytid + countLinksTo ytid ld' := by
  unfold liveLinks save_user_links load_user_links
  cases hl : alookup fs.users u with
  | none =>
    have he : aerase fs.users u = fs.users := aerase_of_not_mem fs.users u hl
    simp [aset, he, countLinksTo]
    ring
  | some ld0 =>
    have hperm := perm_aset_split fs.users u ld0 hnd hl
    have hsum := List.Perm.sum_eq (List.Perm.map (fun p => countLinksTo ytid p.2) hperm)
    simp only [List.map_cons, List.sum_cons] at hsum
    simp only [aset, List.map_cons, List.sum_cons, Option.getD_some]
    have hld' : countLinksTo ytid { ld' with updated_at := some now } = countLinksTo ytid ld' :=
      rfl
    rw [hld', hsum]
    omega

theorem UsersWF_save (fs : LibFS) (u : String) (ld' : LinksData) (now : Nat)
    (h : UsersWF fs) (hl : (ld'.links.map Prod.fst).Nodup) :
    UsersWF (save_user_links fs u ld' now) := by
  constructor
  · exact nodup_keys_aset fs.users u _ h.1
  · intro p hp
    simp only [save_user_links, aset, List.mem_cons] at hp
    rcases hp with hp | hp
    · simp [hp, hl]
    · exact h.2 p (List.mem_of_mem_filter hp)

/-! ## Link/Unlink operation sequences (claim C1) -/

inductive LibOp where
  | link (username job_id : String)
  | unlink (username job_id : String)
  deriving Repr, DecidableEq

def applyOp (ytid : String) (now : Nat) (fs : LibFS) : LibOp → LibFS
  | .link u j => (link_to_user_library fs u ytid j none none none none now).1
  | .unlink u j => (unlink_from_user_library fs u j now).1

def applyOps (ytid : String) (now : Nat) : LibFS → List LibOp → LibFS
  | fs, [] => fs
  | fs, op :: rest => applyOps ytid now (applyOp ytid now fs op) rest

/-- A sequence is well-formed when each `link` uses a job id that is not
currently linked for that user and each `unlink` removes a job that is
currently linked to this very entry. -/
def wfOps (ytid : String) (now : Nat) : LibFS → List LibOp → Bool
  | _, [] => true
  | fs, .link u j :: rest =>
    (alookup (load_user_links fs u now).links j).isNone &&
      wfOps ytid now (applyOp ytid now fs (.link u j)) rest
  | fs, .unlink u j :: rest =>
    (match alookup (load_user_links fs u now).links j with
     | some info => info.youtube_id == ytid
     | none => false) &&
      wfOps ytid now (applyOp ytid now fs (.unlink u j)) rest

def numLinks (ops : List LibOp) : Nat :=
  ops.countP (fun op => match op with | .link _ _ => true | .unlink _ _ => false)

def numUnlinks (ops : List LibOp) : Nat :=
  ops.countP (fun op => match op with | .link _ _ => false | .unlink _ _ => true)

/-! ### Step lemmas for `Link`/`Unlink` -/

theorem liveLinks_update (fs : LibFS) (id : String) (inc : Bool) (now : Nat) (ytid : String) :
    liveLinks (update_library_usage fs id inc now).1 ytid = liveLinks fs ytid := by
  unfold update_library_usage
  cases hd : alookup fs.lib id
  · simp only [hd]
  · simp only [hd]
    rfl

theorem link_usage_step (fs : LibFS) (u ytid j : String) (dn su q mo : Option String) (now : Nat)
    (hdir : (alookup fs.lib ytid).isSome = true) :
    get_library_usage (link_to_user_library fs u ytid j dn su q mo now).1 ytid
      = get_library_usage fs ytid + 1 := by
  obtain ⟨dir, hd⟩ := Option.isSome_iff_exists.mp hdir
  cases hm : dir.meta with
  | none =>
    simp [link_to_user_library, save_user_links, update_library_usage,
      get_library_usage, get_library_metadata, hd, hm, alookup_aset]
  | some m =>
    simp [link_to_user_library, save_user_links, update_library_usage,
      get_library_usage, get_library_metadata, hd, hm, alookup_aset]

theorem unlink_usage_step (fs : LibFS) (u j : String) (now : Nat) (info : LinkInfo)
    (hl : alookup (load_user_links fs u now).links j = some info)
    (hy : info.youtube_id ≠ "") :
    get_library_usage (unlink_from_user_library fs u j now).1 info.youtube_id
      = get_library_usage fs info.youtube_id - 1 := by
  simp only [unlink_from_user_library, hl]
  rw [if_neg hy]
  cases hd : alookup fs.lib info.youtube_id with
  | none =>
    simp [update_library_usage, save_user_links, get_library_usage, get_library_metadata, hd]
  | some dir =>
    cases hm : dir.meta with
    | none =>
      simp [update_library_usage, save_user_links, get_library_usage, get_library_metadata,
        hd, hm, alookup_aset]
    | some m =>
      simp [update_library_usage, save_user_links, get_library_usage, get_library_metadata,
        hd, hm, alookup_aset]

theorem liveLinks_after_link_save (fs : LibFS) (u j : String) (now : Nat) (ytid : String)
    (info : LinkInfo) (hWF : UsersWF fs)
    (hj : alookup (load_user_links fs u now).links j = none)
    (hinfo : info.youtube_id = ytid) :
    liveLinks (save_user_links fs u
        { load_user_links fs u now with
          links := aset (load_user_links fs u now).links j info } now) ytid
      = liveLinks fs ytid + 1 := by
  have h1 := liveLinks_save fs u
    { load_user_links fs u now with
      links := aset (load_user_links fs u now).links j info } now ytid hWF.1
  have hc : countLinksTo ytid
      { load_user_links fs u now with
        links := aset (load_user_links fs u now).links j info }
      = countLinksTo ytid (load_user_links fs u now) + 1 := by
    simp [countLinksTo, aset, aerase_of_not_mem _ _ hj, List.countP_cons, hinfo]
  omega

theorem link_liveLinks_step (fs : LibFS) (u ytid j : String) (dn su q mo : Option String)
    (now : Nat) (hWF : UsersWF fs)
    (hj : alookup (load_user_links fs u now).links j = none) :
    liveLinks (link_to_user_library fs u ytid j dn su q mo now).1 ytid
      = liveLinks fs ytid + 1 := by
  unfold link_to_user_library
  rw [liveLinks_update]
  exact liveLinks_after_link_save fs u j now ytid _ hWF hj rfl

theorem unlink_liveLinks_step (fs : LibFS) (u j : String) (now : Nat) (info : LinkInfo)
    (ytid : String) (hWF : UsersWF fs)
    (hl : alookup (load_user_links fs u now).links j = some info)
    (hinfo : info.youtube_id = ytid) (hy : ytid ≠ "") :
    liveLinks (unlink_from_user_library fs u j now).1 ytid + 1 = liveLinks fs ytid := by
  have hyy : ¬info.youtube_id = "" := by rw [hinfo]; exact hy
  simp only [unlink_from_user_library, hl]
  rw [if_neg hyy]
  simp only [liveLinks_update]
  have h1 := liveLinks_save fs u
    { links := aerase (load_user_links fs u now).links j,
      created_at := (load_user_links fs u now).created_at,
      updated_at := (load_user_links fs u now).updated_at } now ytid hWF.1
  have hc : countLinksTo ytid
      (LinksData.mk (aerase (load_user_links fs u now).links j)
        (load_user_links fs u now).created_at
        (load_user_links fs u now).updated_at) + 1
      = countLinksTo ytid (load_user_links fs u now) := by
    have hnd := load_links_nodup fs u now hWF
    have hperm := perm_aset_split (load_user_links fs u now).links j info hnd hl
    have hcnt := List.Perm.countP_eq (fun q => q.2.youtube_id == ytid) hperm
    simp only [List.countP_cons] at hcnt
    simp [countLinksTo, hcnt, hinfo]
  omega

/-! ### Preservation lemmas -/

theorem lib_lookup_update (fs : LibFS) (id : String) (inc : Bool) (now : Nat) (ytid : String)
    (h : (alookup fs.lib ytid).isSome = true) :
    (alookup (update_library_usage fs id inc now).1.lib ytid).isSome = true := by
  unfold update_library_usage
  cases hd : alookup fs.lib id with
  | none => simpa using h
  | some dir =>
    by_cases hid : id = ytid
    · subst hid; simp [alookup_aset]
    · simpa [alookup_aset_ne _ _ _ _ hid] using h

theorem lib_lookup_link (fs : LibFS) (u ytid j : String) (dn su q mo : Option String)
    (now : Nat) (h : (alookup fs.lib ytid).isSome = true) :
    (alookup (link_to_user_library fs u ytid j dn su q mo now).1.lib ytid).isSome = true := by
  unfold link_to_user_library
  exact lib_lookup_update _ _ _ _ _ h

theorem lib_lookup_unlink (fs : LibFS) (u j : String) (now : Nat) (ytid : String)
    (h : (alookup fs.lib ytid).isSome = true) :
    (alookup (unlink_from_user_library fs u j now).1.lib ytid).isSome = true := by
  cases hl : alookup (load_user_links fs u now).links j with
  | none => simpa [unlink_from_user_library, hl] using h
  | some info =>
    by_cases hy : info.youtube_id = ""
    · simpa [unlink_from_user_library, hl, hy] using h
    · simp only [unlink_from_user_library, hl]
      rw [if_neg hy]
      exact lib_lookup_update _ _ _ _ _ h

theorem UsersWF_update (fs : LibFS) (id : String) (inc : Bool) (now : Nat)
    (h : UsersWF fs) : UsersWF (update_library_usage fs id inc now).1 := by
  unfold update_library_usage
  cases hd : alookup fs.lib id
  · simp only [hd]; exact h
  · simp only [hd]; exact h

theorem UsersWF_link (fs : LibFS) (u ytid j : String) (dn su q mo : Option String)
    (now : Nat) (h : UsersWF fs) :
    UsersWF (link_to_user_library fs u ytid j dn su q mo now).1 := by
  unfold link_to_user_library
  exact UsersWF_update _ _ _ _
    (UsersWF_save fs u _ now h (nodup_keys_aset _ _ _ (load_links_nodup fs u now h)))

theorem UsersWF_unlink (fs : LibFS) (u j : String) (now : Nat)
    (h : UsersWF fs) : UsersWF (unlink_from_user_library fs u j now).1 := by
  cases hl : alookup (load_user_links fs u now).links j with
  | none => simpa [unlink_from_user_library, hl] using h
  | some info =>
    by_cases hy : info.youtube_id = ""
    · simp only [unlink_from_user_library, hl]
      rw [if_pos hy]
      exact UsersWF_save fs u _ now h (nodup_keys_aerase _ _ (load_links_nodup fs u now h))
    · simp only [unlink_from_user_library, hl]
      rw [if_neg hy]
      exact UsersWF_update _ _ _ _
        (UsersWF_save fs u _ now h (nodup_keys_aerase _ _ (load_links_nodup fs u now h)))

/-! ### The reference-count invariant -/

theorem refcount_invariant (ytid : String) (now : Nat) (hy : ytid ≠ "") :
    ∀ ops fs, wfOps ytid now fs ops = true → UsersWF fs →
      (alookup fs.lib ytid).isSome = true →
      get_library_usage fs ytid = liveLinks fs ytid →
      get_library_usage (applyOps ytid now fs ops) ytid
          = liveLinks (applyOps ytid now fs ops) ytid ∧
        liveLinks (applyOps ytid now fs ops) ytid + numUnlinks ops
          = liveLinks fs ytid + numLinks ops := by
  intro ops
  induction ops with
  | nil =>
    intro fs _ _ _ hinv
    exact ⟨hinv, by simp [applyOps, numLinks, numUnlinks]⟩
  | cons op rest ih =>
    intro fs hwf hu hd hinv
    cases op with
    | link u j =>
      simp only [wfOps, Bool.and_eq_true, Option.isNone_iff_eq_none] at hwf
      obtain ⟨hj, hrest⟩ := hwf
      have hfs' : applyOp ytid now fs (.link u j)
          = (link_to_user_library fs u ytid j none none none none now).1 := rfl
      have hu' : UsersWF (applyOp ytid now fs (.link u j)) := by
        rw [hfs']; exact UsersWF_link fs u ytid j none none none none now hu
      have hd' : (alookup (applyOp ytid now fs (.link u j)).lib ytid).isSome = true := by
        rw [hfs']; exact lib_lookup_link fs u ytid j none none none none now hd
      have husage : get_library_usage (applyOp ytid now fs (.link u j)) ytid
          = get_library_usage fs ytid + 1 := by
        rw [hfs']; exact link_usage_step fs u ytid j none none none none now hd
      have hlive : liveLinks (applyOp ytid now fs (.link u j)) ytid
          = liveLinks fs ytid + 1 := by
        rw [hfs']; exact link_liveLinks_step fs u ytid j none none none none now hu hj
      have hinv' : get_library_usage (applyOp ytid now fs (.link u j)) ytid
          = liveLinks (applyOp ytid now fs (.link u j)) ytid := by omega
      obtain ⟨h1, h2⟩ := ih (applyOp ytid now fs (.link u j)) hrest hu' hd' hinv'
      refine ⟨h1, ?_⟩
      simp [applyOps, numLinks, numUnlinks, List.countP_cons] at h2 ⊢
      omega
    | unlink u j =>
      simp only [wfOps, Bool.and_eq_true] at hwf
      obtain ⟨hm, hrest⟩ := hwf
      cases hl : alookup (load_user_links fs u now).links j with
      | none => rw [hl] at hm; simp at hm
      | some info =>
        rw [hl] at hm
        have hinfo : info.youtube_id = ytid := by simpa using hm
        have hyy : info.youtube_id ≠ "" := by rw [hinfo]; exact hy
        have hfs' : applyOp ytid now fs (.unlink u j)
            = (unlink_from_user_library fs u j now).1 := rfl
        have hu' : UsersWF (applyOp ytid now fs (.unlink u j)) := by
          rw [hfs']; exact UsersWF_unlink fs u j now hu
        have hd' : (alookup (applyOp ytid now fs (.unlink u j)).lib ytid).isSome = true := by
          rw [hfs']; exact lib_lookup_unlink fs u j now ytid hd
        have husage : get_library_usage (applyOp ytid now fs (.unlink u j)) ytid
            = get_library_usage fs ytid - 1 := by
          rw [hfs']
          have := unlink_usage_step fs u j now info hl hyy
          rwa [hinfo] at this
        have hlive : liveLinks (applyOp ytid now fs (.unlink u j)) ytid + 1
            = liveLinks fs ytid := by
          rw [hfs']; exact unlink_liveLinks_step fs u j now info ytid hu hl hinfo hy
        have hinv' : get_library_usage (applyOp ytid now fs (.unlink u j)) ytid
            = liveLinks (applyOp ytid now fs (.unlink u j)) ytid := by omega
        obtain ⟨h1, h2⟩ := ih (applyOp ytid now fs (.unlink u j)) hrest hu' hd' hinv'
        refine ⟨h1, ?_⟩
        simp [applyOps, numLinks, numUnlinks, List.countP_cons] at h2 ⊢
        omega

theorem alookup_aerase_self {α : Type} (l : List (String × α)) (k : String) :
    alookup (aerase l k) k = none := by
  apply alookup_eq_none_of_keys
  intro hmem
  rcases List.mem_map.1 hmem with ⟨p, hp, hpk⟩
  have := List.of_mem_filter hp
  simp [hpk] at this

/-- Modelled filesystem action: a pipeline worker writing one more output
file into the entry's folder (what `orchestrator.process` does while the
separation stage runs). -/
def write_stem_file (fs : LibFS) (youtube_id : String) (f : LibFile) : LibFS :=
  match alookup fs.lib youtube_id with
  | none => fs
  | some dir => { fs with lib := aset fs.lib youtube_id { dir with files := dir.files ++ [f] } }

/-! ## Claim C1: the reference-count law -/

/-- Claim C1, as stated, is false: starting from a fresh entry, the
sequence `Unlink(u,j); Link(u,j)` leaves `usage_count = 1` although
`max(0, #links - #unlinks) = 0` — the unlink of a job that is not linked
decrements nothing, so the per-call floor does not implement the global
`max`. -/
theorem C1_counterexample :
    get_library_usage
        (applyOps "dQw4w9WgXcQ" 0 (create_library_entry emptyFS "dQw4w9WgXcQ" none none none 0)
          [LibOp.unlink "u" "j", LibOp.link "u" "j"]) "dQw4w9WgXcQ" = 1 ∧
      max 0 (numLinks [LibOp.unlink "u" "j", LibOp.link "u" "j"]
        - numUnlinks [LibOp.unlink "u" "j", LibOp.link "u" "j"]) = 0 := by
  constructor
  · rfl
  · decide

/-- Claim C1 (amended): starting from a fresh entry, for every sequence in
which each `Link` uses a job id not currently linked for that user and each
`Unlink` removes a job currently linked to this entry, `usage_count`
equals `#links - #unlinks` and always equals the number of live
user-library links referencing the entry; moreover each `Link` increments
the counter by exactly one (provided the entry directory exists) and each
`Unlink` of a live link decrements it by exactly one with a floor of
zero. -/
theorem C1_refcount_law_amended (ytid : String) (hy : ytid ≠ "")
    (su q mo : Option String) (now : Nat) (ops : List LibOp)
    (hwf : wfOps ytid now (create_library_entry emptyFS ytid su q mo now) ops = true) :
    (get_library_usage
        (applyOps ytid now (create_library_entry emptyFS ytid su q mo now) ops) ytid
      = numLinks ops - numUnlinks ops) ∧
    (get_library_usage
        (applyOps ytid now (create_library_entry emptyFS ytid su q mo now) ops) ytid
      = liveLinks (applyOps ytid now (create_library_entry emptyFS ytid su q mo now) ops) ytid) ∧
    numUnlinks ops ≤ numLinks ops ∧
    (∀ fs u j dn su' q' mo', (alookup fs.lib ytid).isSome = true →
      get_library_usage (link_to_user_library fs u ytid j dn su' q' mo' now).1 ytid
        = get_library_usage fs ytid + 1) ∧
    (∀ fs u j info, alookup (load_user_links fs u now).links j = some info →
      info.youtube_id = ytid →
      get_library_usage (unlink_from_user_library fs u j now).1 ytid
        = get_library_usage fs ytid - 1) := by
  have base1 : UsersWF (create_library_entry emptyFS ytid su q mo now) := by
    constructor
    · simp [create_library_entry, emptyFS]
    · intro p hp
      simp [create_library_entry, emptyFS] at hp
  have base2 : (alookup (create_library_entry emptyFS ytid su q mo now).lib ytid).isSome
      = true := by
    simp [create_library_entry, emptyFS, alookup_aset]
  have base3 : get_library_usage (create_library_entry emptyFS ytid su q mo now) ytid = 0 := by
    simp [create_library_entry, get_library_usage, get_library_metadata, emptyFS, alookup_aset]
  have base4 : liveLinks (create_library_entry emptyFS ytid su q mo now) ytid = 0 := by
    simp [liveLinks, create_library_entry, emptyFS]
  obtain ⟨h1, h2⟩ := refcount_invariant ytid now hy ops _ hwf base1 base2 (by rw [base3, base4])
  rw [base4] at h2
  refine ⟨by omega, h1, by omega, ?_, ?_⟩
  · intro fs u j dn su' q' mo' hdir
    exact link_usage_step fs u ytid j dn su' q' mo' now hdir
  · intro fs u j info hl hinfo
    have hyy : info.youtube_id ≠ "" := by rw [hinfo]; exact hy
    have := unlink_usage_step fs u j now info hl hyy
    rwa [hinfo] at this

/-- Concrete run of the amended reference-count law: two links from
different users and one matching unlink leave a usage count of one. -/
theorem C1_refcount_law_amended_witness :
    get_library_usage
        (applyOps "dQw4w9WgXcQ" 0 (create_library_entry emptyFS "dQw4w9WgXcQ" none none none 0)
          [LibOp.link "alice" "j1", LibOp.link "bob" "j2", LibOp.unlink "alice" "j1"])
        "dQw4w9WgXcQ" = 1 := by
  have h := C1_refcount_law_amended "dQw4w9WgXcQ" (by decide) none none none 0
    [LibOp.link "alice" "j1", LibOp.link "bob" "j2", LibOp.unlink "alice" "j1"] (by decide)
  have h2 : numLinks [LibOp.link "alice" "j1", LibOp.link "bob" "j2", LibOp.unlink "alice" "j1"]
      - numUnlinks [LibOp.link "alice" "j1", LibOp.link "bob" "j2", LibOp.unlink "alice" "j1"]
      = 1 := by decide
  exact h.1.trans h2

/-! ## Claim C3: no partial publish -/

/-- Claim C3, as stated, is false: after `Create` plus a single written
`vocals` stem, `Lookup` already hits even though other target stems (for
example `drums`) are still missing — the guard only requires one of
`instrumental`/`vocals` on disk. -/
theorem C3_counterexample :
    (check_library_exists
        (write_stem_file (create_library_entry emptyFS "vid00000000" none none none 0)
          "vid00000000" ⟨"song", "vocals", "mp3"⟩) "vid00000000").isSome = true ∧
      alookup (get_library_stems
        (write_stem_file (create_library_entry emptyFS "vid00000000" none none none 0)
          "vid00000000" ⟨"song", "vocals", "mp3"⟩) "vid00000000") "drums" = none := by
  constructor
  · rfl
  · rfl

/-- Claim C3 (amended): an entry created by `Create` alone (no stems on
disk) is invisible to `Lookup`; in general `Lookup(content_id)` hits
exactly when the entry directory carries a metadata file and at least one
stem file named `instrumental` or `vocals` exists — presence of the other
target stems is not required. -/
theorem C3_no_partial_publish_amended :
    (∀ ytid su q mo now,
      check_library_exists (create_library_entry emptyFS ytid su q mo now) ytid = none) ∧
    (∀ fs ytid dir, alookup fs.lib ytid = some dir →
      ((check_library_exists fs ytid).isSome = true ↔
        dir.meta.isSome = true ∧
          (dir.files.any (fun f => f.stemType == "instrumental")
            || dir.files.any (fun f => f.stemType == "vocals")) = true)) := by
  constructor
  · intro ytid su q mo now
    simp [check_library_exists, create_library_entry, emptyFS, alookup, alookup_aset]
  · intro fs ytid dir hd
    unfold check_library_exists
    rw [hd]
    cases hm : dir.meta with
    | none => simp [hm]
    | some m =>
      by_cases hstem : (dir.files.any (fun f => f.stemType == "instrumental")
          || dir.files.any (fun f => f.stemType == "vocals")) = true
      · simp [hm, hstem]
      · simp only [Bool.not_eq_true] at hstem
        simp [hm, hstem]

/-- Concrete run of the amended no-partial-publish characterisation: a
directory with metadata and one vocals stem is a `Lookup` hit. -/
theorem C3_no_partial_publish_amended_witness :
    (check_library_exists
        (LibFS.mk [("v", LibDir.mk (some {}) [⟨"s", "vocals", "mp3"⟩] false)] [] [])
        "v").isSome = true ∧
      check_library_exists (create_library_entry emptyFS "vid00000000" none none none 0)
        "vid00000000" = none := by
  constructor
  · exact (C3_no_partial_publish_amended.2
      (LibFS.mk [("v", LibDir.mk (some {}) [⟨"s", "vocals", "mp3"⟩] false)] [] [])
      "v" (LibDir.mk (some {}) [⟨"s", "vocals", "mp3"⟩] false) rfl).mpr (by decide)
  · exact C3_no_partial_publish_amended.1 "vid00000000" none none none 0

/-! ## Claim C7: the archive guard -/

/-- Claim C7: `Archive` fails and changes nothing while `usage_count > 0`;
with `usage_count == 0` it succeeds, removes the entry from the active
library, stamps `archived_at` and the archive reason, and prepends the
folder to the dated archive partition. -/
theorem C7_archive_guard (fs : LibFS) (ytid reason : String) (now : Nat) (dir : LibDir)
    (m : LibMeta) (hd : alookup fs.lib ytid = some dir) (hm : dir.meta = some m) :
    (0 < m.usage_count.getD 0 →
      archive_library_item fs ytid reason now = (fs, false)) ∧
    (m.usage_count.getD 0 = 0 →
      (archive_library_item fs ytid reason now).2 = true ∧
      alookup (archive_library_item fs ytid reason now).1.lib ytid = none ∧
      (archive_library_item fs ytid reason now).1.archive
        = (now, ytid,
            { dir with meta := some { m with archived_at := some now,
                                             archive_reason := some reason } }) :: fs.archive) := by
  constructor
  · intro hpos
    simp [archive_library_item, hd, hm, hpos]
  · intro hz
    have hneg : ¬0 < m.usage_count.getD 0 := by omega
    simp [archive_library_item, hd, hm, hz, hneg, alookup_aerase_self]

def c7meta0 : LibMeta :=
  { youtube_id := some "vid00000000", created_at := some 5, usage_count := some 0 }

def c7dir0 : LibDir := { meta := some c7meta0 }

def c7meta1 : LibMeta :=
  { youtube_id := some "vid00000000", created_at := some 5, usage_count := some 1,
    last_usage_update := some 6 }

def c7dir1 : LibDir := { meta := some c7meta1 }

/-- Concrete runs of the archive guard: archiving a linked entry fails and
leaves the state unchanged; archiving a fresh zero-usage entry succeeds
and empties the active slot. -/
theorem C7_archive_guard_witness :
    archive_library_item
        (update_library_usage (create_library_entry emptyFS "vid00000000" none none none 5)
          "vid00000000" true 6).1 "vid00000000" "cleanup" 9
      = ((update_library_usage (create_library_entry emptyFS "vid00000000" none none none 5)
          "vid00000000" true 6).1, false) ∧
    (archive_library_item (create_library_entry emptyFS "vid00000000" none none none 5)
        "vid00000000" "cleanup" 9).2 = true ∧
    alookup (archive_library_item (create_library_entry emptyFS "vid00000000" none none none 5)
        "vid00000000" "cleanup" 9).1.lib "vid00000000" = none := by
  refine ⟨?_, ?_, ?_⟩
  · exact (C7_archive_guard
      (update_library_usage (create_library_entry emptyFS "vid00000000" none none none 5)
        "vid00000000" true 6).1
      "vid00000000" "cleanup" 9 c7dir1 c7meta1 rfl rfl).1 (by decide)
  · exact ((C7_archive_guard (create_library_entry emptyFS "vid00000000" none none none 5)
      "vid00000000" "cleanup" 9 c7dir0 c7meta0 rfl rfl).2 (by decide)).1
  · exact ((C7_archive_guard (create_library_entry emptyFS "vid00000000" none none none 5)
      "vid00000000" "cleanup" 9 c7dir0 c7meta0 rfl rfl).2 (by decide)).2.1

/-! ## Claim C10: linking content that has no library entry -/

/-- Claim C10, as stated, is false in its second half: linking a
content id with no entry on disk does return `True`, but the usage-count
update fails on the missing entry directory (`open` raises, the exception
is swallowed), so no metadata file with counter `1` is created and the
stored usage stays `0`. -/
theorem C10_counterexample :
    (link_to_user_library emptyFS "alice" "vid00000000" "job1" none none none none 3).2 = true ∧
    get_library_metadata
        (link_to_user_library emptyFS "alice" "vid00000000" "job1" none none none none 3).1
        "vid00000000" = none ∧
    get_library_usage
        (link_to_user_library emptyFS "alice" "vid00000000" "job1" none none none none 3).1
        "vid00000000" = 0 := by
  refine ⟨rfl, rfl, rfl⟩

/-- Claim C10 (amended): linking a content id with no library entry still
succeeds (`True`) and records the user-library link, but creates no
metadata and leaves the usage count at `0`; the fresh metadata file with
counter `1` and a timestamp only appears when the entry directory already
exists (then even without a metadata file inside it). -/
theorem C10_link_without_entry_amended (username ytid jobId : String) (dn : Option String)
    (now : Nat) :
    (link_to_user_library emptyFS username ytid jobId dn none none none now).2 = true ∧
    alookup (load_user_links
        (link_to_user_library emptyFS username ytid jobId dn none none none now).1 username now).links
        jobId
      = some { youtube_id := ytid, display_name := dn, linked_at := now, is_library_link := true,
               source_url := none, quality := none, mode := none } ∧
    get_library_metadata
        (link_to_user_library emptyFS username ytid jobId dn none none none now).1 ytid = none ∧
    get_library_usage
        (link_to_user_library emptyFS username ytid jobId dn none none none now).1 ytid = 0 ∧
    get_library_metadata
        (link_to_user_library (LibFS.mk [(ytid, {})] [] []) username ytid jobId dn none none none
          now).1 ytid
      = some { usage_count := some 1, last_usage_update := some now } := by
  refine ⟨rfl, ?_, ?_, ?_, ?_⟩
  · simp [link_to_user_library, save_user_links, load_user_links, update_library_usage,
      emptyFS, alookup, alookup_aset]
  · simp [link_to_user_library, save_user_links, load_user_links, update_library_usage,
      get_library_metadata, emptyFS, alookup]
  · simp [link_to_user_library, save_user_links, load_user_links, update_library_usage,
      get_library_usage, get_library_metadata, emptyFS, alookup]
  · simp [link_to_user_library, save_user_links, load_user_links, update_library_usage,
      get_library_metadata, emptyFS, alookup, alookup_aset]

/-! ## Job registry and query surface (`dashboard.py`)

`jobs_storage` is the in-memory dict of job records; the record fields
below are the keys the modelled handlers read or write (an absent key is
the field's default, matching `dict.get`). -/

structure JobRecord where
  job_id : String := ""
  filename : String := ""
  display_name : String := ""
  original_name : String := ""
  status : String := ""
  progress : Nat := 0
  stage : String := ""
  quality : Option String := none
  mode : Option String := none
  source_url : Option String := none
  user : Option String := none
  user_plan : Option String := none
  created_at : Nat := 0
  completed_at : Option Nat := none
  stems : List (String × String) := []
  youtube_video_id : Option String := none
  has_video : Bool := false
  is_library_link : Bool := false
  has_lyrics : Bool := false
  is_youtube : Bool := false
  duration : Nat := 0
  music_info : Option String := none
  error : Option String := none
  preview_mode : Bool := false
  video_title : Option String := none
  deriving Repr, DecidableEq

def JobsMap := List (String × JobRecord)

inductive ApiResult where
  | ok
  | notFound (msg : String)
  | denied (msg : String)
  | badRequest (msg : String)
  deriving Repr, DecidableEq

/-- `GET /status/<job_id>`: 404 when the job is unknown, 403 when the
caller is neither admin nor the owner, the record otherwise. -/
def get_status (jobs : JobsMap) (sessionUser sessionRole : Option String)
    (jobId : String) : ApiResult :=
  match alookup jobs jobId with
  | none => .notFound "Job not found"
  | some job =>
    if sessionRole ≠ some "admin" ∧ job.user ≠ sessionUser then .denied "Access denied"
    else .ok

/-- `POST /admin/cancel/<job_id>`: admin-only; refuses terminal jobs; sets
the cooperative flag when one is registered (status `cancelling`),
otherwise marks the job `cancelled` directly. -/
def cancel_job (jobs : JobsMap) (flags : List (String × Bool)) (sessionRole : Option String)
    (jobId : String) : ApiResult × JobsMap × List (String × Bool) :=
  if sessionRole ≠ some "admin" then (.denied "Admin access required", jobs, flags)
  else
    match alookup jobs jobId with
    | none => (.notFound "Job not found", jobs, flags)
    | some job =>
      if job.status = "completed" then (.badRequest "Job already completed", jobs, flags)
      else if job.status = "failed" then (.badRequest "Job already failed", jobs, flags)
      else if job.status = "cancelled" then (.badRequest "Job already cancelled", jobs, flags)
      else
        match alookup flags jobId with
        | some _ =>
          (.ok,
           aset jobs jobId { job with status := "cancelling", stage := "Cancellation requested..." },
           aset flags jobId true)
        | none =>
          (.ok,
           aset jobs jobId { job with status := "cancelled", stage := "Cancelled by admin" },
           flags)

/-- `DELETE /delete/<job_id>`: 404 when unknown, 403 for a foreign caller;
for a library-backed job it calls `unlink_from_user_library(job_owner,
youtube_id)` — passing the content id where the job id is expected — and
archives the entry itself when the usage count is then zero; otherwise it
hard-deletes the private files (outside this model) and drops the
record. -/
def delete_job (fs : LibFS) (jobs : JobsMap) (sessionUser sessionRole : Option String)
    (jobId : String) (now : Nat) : ApiResult × LibFS × JobsMap :=
  match alookup jobs jobId with
  | none => (.notFound "Job not found", fs, jobs)
  | some job =>
    if sessionRole ≠ some "admin" ∧ job.user ≠ sessionUser then (.denied "Access denied", fs, jobs)
    else
      let is_library_link : Bool := job.is_library_link ||
        (match job.youtube_video_id with | some s => !(s == "") | none => false)
      match job.youtube_video_id with
      | some vid =>
        if is_library_link && !(vid == "") then
          let fs1 := match job.user with
            | some owner => (unlink_from_user_library fs owner vid now).1
            | none => fs
          let usage := get_library_usage fs1 vid
          let fs2 := if usage = 0 then (archive_library_item fs1 vid "user_deleted" now).1 else fs1
          (.ok, fs2, aerase jobs jobId)
        else (.ok, fs, aerase jobs jobId)
      | none => (.ok, fs, aerase jobs jobId)

/-! ## `extract_youtube_id` and the URL submission endpoint -/

def ytChar (c : Char) : Bool :=
  c.isAlpha || c.isDigit || c == '_' || c == '-'

/-- Try one regex alternative at the current position: the literal marker
followed by a capture of exactly 11 id characters. -/
def tryMarker (s marker : List Char) : Option String :=
  if marker.isPrefixOf s then
    let cand := (s.drop marker.length).take 11
    if cand.length = 11 && cand.all ytChar then some (String.mk cand) else none
  else none

def tryMarkers (markers : List (List Char)) (s : List Char) : Option String :=
  match markers with
  | [] => none
  | m :: ms =>
    match tryMarker s m with
    | some r => some r
    | none => tryMarkers ms s

/-- Leftmost regex search: at each position try the alternatives in
order, then move one character right. -/
def searchPat (markers : List (List Char)) : List Char → Option String
  | [] => none
  | c :: rest =>
    match tryMarkers markers (c :: rest) with
    | some r => some r
    | none => searchPat markers rest

/-- `extract_youtube_id`: ordered pattern match over the known YouTube URL
shapes; the first regex (four alternatives) wins over the shorts form;
unmatched URLs give `None`. -/
def extract_youtube_id (url : String) : Option String :=
  if url = "" then none
  else
    match searchPat ["youtube.com/watch?v=".data, "youtu.be/".data,
        "youtube.com/embed/".data, "youtube.com/v/".data] url.data with
    | some r => some r
    | none => searchPat ["youtube.com/shorts/".data] url.data

def listContainsSub (pat : List Char) : List Char → Bool
  | [] => pat.isEmpty
  | c :: rest => pat.isPrefixOf (c :: rest) || listContainsSub pat rest

/-- Python's `pat in s` on strings. -/
def strContainsSub (s pat : String) : Bool :=
  listContainsSub pat.data s.data

/-- The `supported_patterns` check of `upload_from_url` (on the lowercased
URL). -/
def supported_url (url : String) : Bool :=
  strContainsSub (strLower url) "youtube.com" || strContainsSub (strLower url) "youtu.be" ||
    strContainsSub (strLower url) "soundcloud.com" || strContainsSub (strLower url) "vimeo.com" ||
    strContainsSub (strLower url) "bandcamp.com" || strContainsSub (strLower url) "spotify.com"

def hasLyricsGlob (fs : LibFS) (vid : String) : Bool :=
  match alookup fs.lib vid with
  | some dir => dir.lyrics
  | none => false

inductive UploadResult where
  | badRequest (msg : String)
  | limitReached
  | instant (fs : LibFS) (jobs : JobsMap) (jobId : String)
  | dispatch (fs : LibFS) (jobs : JobsMap) (jobId : String)

def isInstantResult : UploadResult → Bool
  | .instant _ _ _ => true
  | _ => false

/-- The job record the library short-circuit writes (lines 1993–2015 of
`dashboard.py`): directly `completed`, stems mapped to `/library/` URLs,
metadata copied from the entry. -/
def libraryHitRecord (fs : LibFS) (su splan : Option String) (url quality mode jid vid : String)
    (meta : LibMeta) (now : Nat) : JobRecord :=
  { job_id := jid, filename := url,
    display_name := meta.display_name.getD (meta.title.getD "Unknown"),
    original_name := meta.display_name.getD (meta.title.getD "Unknown"),
    status := "completed", progress := 100, stage := "Complete",
    quality := some quality, mode := some mode, source_url := some url, user := su,
    user_plan := some (splan.getD "free"), created_at := now, completed_at := some now,
    stems := (get_library_stems fs vid).map (fun p => (p.1, "/library/" ++ vid ++ "/" ++ p.1)),
    youtube_video_id := some vid, has_video := true, is_library_link := true,
    has_lyrics := hasLyricsGlob fs vid, duration := meta.duration.getD 0,
    music_info := meta.music_info }

/-- `POST /upload-url`: validate the URL, then check the shared library
first — a hit links the entry to the caller and records the job directly
as `completed` (no worker is started); otherwise enforce the plan limit
and create a `downloading` record whose worker runs
`download_and_process_url`.  `usageAllowed` stands for
`check_usage_limit(username)['allowed']`. -/
def upload_from_url (fs : LibFS) (jobs : JobsMap) (sessionUser sessionPlan : Option String)
    (usageAllowed : Bool) (url quality mode : String) (outputName : String)
    (preview : Bool) (jobId : String) (now : Nat) : UploadResult :=
  if url = "" then .badRequest "No URL provided"
  else if !(supported_url url) then
    .badRequest "Unsupported URL. Supported: YouTube, SoundCloud, Vimeo, Bandcamp"
  else
    let hit := match extract_youtube_id url with
      | some vid => (check_library_exists fs vid).map (fun m => (vid, m))
      | none => none
    match hit with
    | some (vid, meta) =>
      let display_name := meta.display_name.getD (meta.title.getD "Unknown")
      let fs1 := match sessionUser with
        | some u => (link_to_user_library fs u vid jobId (some display_name)
            (some url) (some quality) (some mode) now).1
        | none => fs
      let rec1 := libraryHitRecord fs sessionUser sessionPlan url quality mode jobId vid meta now
      .instant fs1 (aset jobs jobId rec1) jobId
    | none =>
      if sessionUser.isSome && !usageAllowed then .limitReached
      else
        let rec0 : JobRecord :=
          { job_id := jobId, filename := url,
            display_name := if outputName = "" then "Downloading..." else outputName,
            status := "downloading", progress := 0, stage := "Downloading from URL...",
            quality := some quality, mode := some mode, source_url := some url,
            user := sessionUser, user_plan := some (sessionPlan.getD "free"),
            preview_mode := preview, created_at := now }
        .dispatch fs (aset jobs jobId rec0) jobId

/-! ## The URL worker (`download_and_process_url` / `process_downloaded_audio`)

The worker is modelled as a function from its environment (cancellation
flags observed at the checkpoints, download/analysis/separation outcomes)
to the list of snapshots the job record goes through, one snapshot per
`jobs_lock` block that mutates the record. -/

structure PipelineEnv where
  cancelAtStart : Bool := false
  cancelBeforeAnalysis : Bool := false
  cancelBeforeSeparation : Bool := false
  downloadOk : Bool := true
  analysisOk : Bool := true
  sepCompleted : Bool := true
  sepError : String := "Unknown error"
  isYoutube : Bool := true
  videoId : Option String := none
  preview : Bool := false
  videoTitle : String := ""
  duration : Nat := 0
  musicInfo : String := ""
  stemUrls : List (String × String) := []
  deriving Repr, DecidableEq

/-- `process_downloaded_audio`: cancellation checkpoint, best-effort
analysis (failure only logged), cancellation checkpoint, separation, and
terminal update; the `except` arm maps error messages containing
`cancelled` to the `cancelled` status and everything else to `failed`. -/
def process_downloaded_audio (env : PipelineEnv) (r : JobRecord) (now : Nat) :
    List JobRecord :=
  if env.cancelBeforeAnalysis then
    [{ r with
        status := "cancelled"
        error := some "Cancelled by admin"
        stage := "Cancelled by admin" }]
  else
    let r1 := if env.analysisOk then
        { r with
            music_info := some env.musicInfo
            progress := 20
            stage := "Detected: " ++ env.musicInfo }
      else r
    let t1 : List JobRecord := if env.analysisOk then [r1] else []
    if env.cancelBeforeSeparation then
      t1 ++ [{ r1 with
          status := "cancelled"
          error := some "Cancelled by admin"
          stage := "Cancelled by admin" }]
    else
      let r2 := { r1 with
        status := "processing"
        progress := 25
        stage := "Separating stems..." }
      let r3 := { r2 with progress := 30 }
      let r4 := { r3 with progress := 90, stage := "Finalizing..." }
      if env.sepCompleted then
        t1 ++ [r2, r3, r4,
          { r4 with
              status := "completed"
              progress := 100
              stage := "Complete"
              stems := env.stemUrls
              completed_at := some now
              is_library_link := env.videoId.isSome }]
      else
        if strContainsSub (strLower env.sepError) "cancelled" then
          t1 ++ [r2, r3, r4,
            { r4 with
                status := "cancelled"
                error := some "Cancelled by admin"
                stage := "Cancelled by admin" }]
        else
          t1 ++ [r2, r3, r4,
            { r4 with
                status := "failed"
                error := some env.sepError
                stage := "Processing failed: " ++ env.sepError }]

/-- `download_and_process_url`: the wrapper around the download plus
`process_downloaded_audio`.  Any exception in its own `try` — including
the `raise Exception("Job cancelled by admin")` from the cancellation
checkpoint before the download — lands in an `except` arm that
unconditionally marks the job `failed`. -/
def download_and_process_url (env : PipelineEnv) (r0 : JobRecord) (now : Nat) :
    List JobRecord :=
  if env.cancelAtStart then
    [{ r0 with
        status := "failed"
        error := some "Job cancelled by admin"
        stage := "Download failed: Job cancelled by admin" }]
  else
    let r1 := { r0 with
      progress := 5
      stage := "Fetching video info..."
      is_youtube := env.isYoutube
      youtube_video_id := if env.preview then none else env.videoId
      source_url := some r0.filename
      preview_mode := env.preview }
    let r2 := { r1 with progress := 10, stage := "Extracting audio..." }
    if !env.downloadOk then
      [r1, r2,
       { r2 with
          status := "failed"
          error := some "Failed to download audio file"
          stage := "Download failed: Failed to download audio file" }]
    else
      let r3 := { r2 with
        filename := env.videoTitle ++ "_original.mp3"
        display_name := env.videoTitle
        original_name := env.videoTitle
        duration := env.duration
        video_title := some env.videoTitle
        has_video := env.isYoutube && env.videoId.isSome
        youtube_video_id := env.videoId
        progress := 15
        status := "analyzing"
        stage := "Analyzing audio..." }
      [r1, r2, r3] ++ process_downloaded_audio env r3 now

def statusesOf (trace : List JobRecord) : List String :=
  trace.map (·.status)

def finalStatusOf (trace : List JobRecord) : Option String :=
  trace.getLast?.map (·.status)

/-! ## The recovery scanner (`scan_existing_outputs`) -/

/-- `job_metadata.json` sidecar of a private output folder. -/
structure ScanMeta where
  youtube_video_id : Option String := none
  display_name : Option String := none
  video_title : Option String := none
  source_url : Option String := none
  is_youtube : Bool := false
  deriving Repr, DecidableEq

/-- One file in a scanned folder: `stem` is the filename without its
extension. -/
structure ScanFile where
  stem : String
  ext : String
  deriving Repr, DecidableEq

/-- One candidate job directory, with its absolute path (used for owner
extraction), modification time and optional metadata sidecar. -/
structure ScanDir where
  name : String
  path : String := ""
  isDir : Bool := true
  files : List ScanFile := []
  mtime : Nat := 0
  hasLyrics : Bool := false
  meta : Option ScanMeta := none
  deriving Repr, DecidableEq

def strStartsWith (s pat : String) : Bool :=
  pat.data.isPrefixOf s.data

/-- `str.split(sep)` on character lists, fuelled by the input length. -/
def splitOnSubAux (sep : List Char) : Nat → List Char → List (List Char)
  | _, [] => [[]]
  | 0, l => [l]
  | fuel + 1, c :: rest =>
    if sep.isPrefixOf (c :: rest) then
      [] :: splitOnSubAux sep fuel (List.drop (sep.length - 1) rest)
    else
      match splitOnSubAux sep fuel rest with
      | [] => [[c]]
      | h :: t => (c :: h) :: t

def splitOnSub (s sep : String) : List String :=
  (splitOnSubAux sep.data s.data.length s.data).map String.mk

/-- `s.rsplit('_', 1)` restricted to the two-part case the scanner uses. -/
def rsplit1 (s : String) : Option (String × String) :=
  match (splitOnSub s "_").reverse with
  | [] => none
  | [_] => none
  | last :: revInit => some (String.intercalate "_" revInit.reverse, last)

/-- Owner extraction from the directory path (`.../users/<name>/<job>` or
an anonymous/legacy location). -/
def dirOwner (p : String) : Option String :=
  if strContainsSub p "users" then
    match splitOnSub p "/users/" with
    | _ :: second :: _ => some ((splitOnSub second "/").headD "")
    | _ => none
  else none

def pyTruthyStr : Option String → Bool
  | some s => !(s == "")
  | none => false

def pyOrStr (a : Option String) (b : String) : String :=
  match a with
  | some s => if s == "" then b else s
  | none => b

/-- The glob filters: `*.mp3` then `*.wav`, excluding pitch caches and
lyrics files. -/
def scanFileKeep (f : ScanFile) : Bool :=
  !(strContainsSub f.stem "_pitch") && !(strContainsSub f.stem "_lyrics") &&
    !(strStartsWith f.stem "pitch")

def scanStemFiles (d : ScanDir) : List ScanFile :=
  d.files.filter (fun f => f.ext == "mp3" && scanFileKeep f) ++
    d.files.filter (fun f => f.ext == "wav" && scanFileKeep f)

/-- Stems/base-name extraction: split each filename at its last
underscore, keep known stem types, remember the first base name. -/
def scanExtract (jobId : String) (files : List ScanFile) :
    List (String × String) × Option String :=
  files.foldl
    (fun acc f =>
      match rsplit1 f.stem with
      | some (nm, stemType) =>
        if valid_stem_types.contains (strLower stemType) then
          (aset acc.1 stemType ("/download/" ++ jobId ++ "/" ++ stemType),
           match acc.2 with | none => some nm | some b => some b)
      else acc
      | none => acc)
    ([], none)

/-- The directory yields a record iff it has stem files, a nonempty stem
map, and a truthy base name. -/
def scanProduce (d : ScanDir) : Option (List (String × String) × String) :=
  let stemFiles := scanStemFiles d
  if stemFiles.isEmpty then none
  else
    match scanExtract d.name stemFiles with
    | (stems, some b) => if stems.isEmpty || b == "" then none else some (stems, b)
    | (_, none) => none

def hasStemsB (jobs : JobsMap) (k : String) : Bool :=
  match alookup jobs k with
  | some r2 => !r2.stems.isEmpty
  | none => false

/-- Enrich an existing record (stems, lyrics flag, and video id when the
sidecar carries one); status and the rest are untouched. -/
def scanUpdateRec (r2 : JobRecord) (d : ScanDir) (stems : List (String × String)) :
    JobRecord :=
  let r3 := { r2 with stems := stems, has_lyrics := d.hasLyrics }
  if pyTruthyStr (d.meta.bind (·.youtube_video_id)) then
    { r3 with youtube_video_id := d.meta.bind (·.youtube_video_id), has_video := true }
  else r3

/-- The synthesised `completed` record for a folder with no registry
entry. -/
def scanNewRec (d : ScanDir) (stems : List (String × String)) (b : String) : JobRecord :=
  { job_id := d.name, filename := b ++ ".wav", display_name := b,
    original_name := pyOrStr (d.meta.bind (·.display_name))
      (pyOrStr (d.meta.bind (·.video_title)) b),
    status := "completed", progress := 100, stems := stems,
    has_lyrics := d.hasLyrics, user := dirOwner d.path,
    created_at := d.mtime, completed_at := some d.mtime,
    youtube_video_id := d.meta.bind (·.youtube_video_id),
    source_url := d.meta.bind (·.source_url),
    is_youtube := (d.meta.map (·.is_youtube)).getD false,
    has_video := (d.meta.bind (·.youtube_video_id)).isSome }

def scanSkipDir (d : ScanDir) : Bool :=
  !d.isDir || strStartsWith d.name "." || d.name == "users" || d.name == "anonymous"

def scanStep (jobs : JobsMap) (d : ScanDir) : JobsMap :=
  if scanSkipDir d then jobs
  else if hasStemsB jobs d.name then jobs
  else
    match scanProduce d with
    | none => jobs
    | some (stems, b) =>
      match alookup jobs d.name with
      | some r2 => aset jobs d.name (scanUpdateRec r2 d stems)
      | none => aset jobs d.name (scanNewRec d stems b)

def scan_existing_outputs (jobs : JobsMap) (dirs : List ScanDir) : JobsMap :=
  dirs.foldl scanStep jobs

/-! ### Scanner lemmas -/

theorem scanProduce_stems_ne (d : ScanDir) (st : List (String × String)) (b : String)
    (h : scanProduce d = some (st, b)) : st.isEmpty = false := by
  simp only [scanProduce] at h
  split at h
  · simp at h
  · split at h
    · split at h
      · simp at h
      · rename_i stems b' heq hcond
        simp only [Option.some.injEq, Prod.mk.injEq] at h
        obtain ⟨h1, _⟩ := h
        subst h1
        simp only [Bool.or_eq_true, not_or, Bool.not_eq_true] at hcond
        exact hcond.1
    · simp at h

theorem hasStemsB_scanStep_preserved (jobs : JobsMap) (d : ScanDir) (k : String)
    (h : hasStemsB jobs k = true) : hasStemsB (scanStep jobs d) k = true := by
  unfold scanStep
  by_cases hskip : scanSkipDir d = true
  · simpa [hskip] using h
  · simp only [Bool.not_eq_true] at hskip
    by_cases hhs : hasStemsB jobs d.name = true
    · simpa [hskip, hhs] using h
    · simp only [Bool.not_eq_true] at hhs
      have hdk : d.name ≠ k := by
        intro he
        rw [he, h] at hhs
        exact Bool.true_eq_false.mp hhs
      simp only [hskip, hhs, Bool.false_eq_true, if_false]
      cases hp : scanProduce d with
      | none => exact h
      | some pr =>
        obtain ⟨stems, b⟩ := pr
        cases hl : alookup jobs d.name with
        | some r2 =>
          unfold hasStemsB
          rw [alookup_aset_ne _ _ _ _ hdk]
          exact h
        | none =>
          unfold hasStemsB
          rw [alookup_aset_ne _ _ _ _ hdk]
          exact h

theorem hasStemsB_scanStep_self (jobs : JobsMap) (d : ScanDir)
    (st : List (String × String)) (b : String)
    (hp : scanProduce d = some (st, b)) (hskip : scanSkipDir d = false) :
    hasStemsB (scanStep jobs d) d.name = true := by
  unfold scanStep
  by_cases hhs : hasStemsB jobs d.name = true
  · simp [hskip, hhs]
  · simp only [Bool.not_eq_true] at hhs
    have hne := scanProduce_stems_ne d st b hp
    simp only [hskip, hhs, Bool.false_eq_true, if_false, hp]
    cases hl : alookup jobs d.name with
    | some r2 =>
      by_cases hyt : pyTruthyStr (d.meta.bind (·.youtube_video_id)) = true <;>
        simp [hasStemsB, alookup_aset, scanUpdateRec, hyt, hne]
    | none =>
      simp [hasStemsB, alookup_aset, scanNewRec, hne]

theorem scanStep_identity (jobs : JobsMap) (d : ScanDir)
    (h : scanSkipDir d = true ∨ scanProduce d = none ∨ hasStemsB jobs d.name = true) :
    scanStep jobs d = jobs := by
  unfold scanStep
  rcases h with h | h | h
  · simp [h]
  · by_cases hskip : scanSkipDir d = true
    · simp [hskip]
    · simp only [Bool.not_eq_true] at hskip
      by_cases hhs : hasStemsB jobs d.name = true <;> simp [hskip, hhs, h]
  · by_cases hskip : scanSkipDir d = true
    · simp [hskip]
    · simp only [Bool.not_eq_true] at hskip
      simp [hskip, h]

theorem hasStemsB_scan_preserved (dirs : List ScanDir) (jobs : JobsMap) (k : String)
    (h : hasStemsB jobs k = true) :
    hasStemsB (scan_existing_outputs jobs dirs) k = true := by
  induction dirs generalizing jobs with
  | nil => exact h
  | cons d rest ih => exact ih _ (hasStemsB_scanStep_preserved jobs d k h)

theorem scan_settles : ∀ (dirs : List ScanDir) (jobs : JobsMap) (d : ScanDir), d ∈ dirs →
    scanSkipDir d = false → (∃ pr, scanProduce d = some pr) →
    hasStemsB (scan_existing_outputs jobs dirs) d.name = true := by
  intro dirs
  induction dirs with
  | nil =>
    intro jobs d h
    simp at h
  | cons d0 rest ih =>
    intro jobs d hmem hskip hpr
    obtain ⟨⟨st, b⟩, hp⟩ := hpr
    rcases List.mem_cons.mp hmem with he | hm
    · subst he
      exact hasStemsB_scan_preserved rest _ _ (hasStemsB_scanStep_self jobs d st b hp hskip)
    · exact ih (scanStep jobs d0) d hm hskip ⟨_, hp⟩

theorem scan_identity_of_settled : ∀ (dirs : List ScanDir) (jobs : JobsMap),
    (∀ d ∈ dirs, scanSkipDir d = false → scanProduce d ≠ none →
      hasStemsB jobs d.name = true) →
    scan_existing_outputs jobs dirs = jobs := by
  intro dirs
  induction dirs with
  | nil => intro jobs _; rfl
  | cons d0 rest ih =>
    intro jobs h
    have h0 := h d0 (List.mem_cons_self d0 rest)
    have hid : scanStep jobs d0 = jobs := by
      by_cases hskip : scanSkipDir d0 = true
      · exact scanStep_identity _ _ (Or.inl hskip)
      · simp only [Bool.not_eq_true] at hskip
        cases hp : scanProduce d0 with
        | none => exact scanStep_identity _ _ (Or.inr (Or.inl hp))
        | some pr =>
          exact scanStep_identity _ _ (Or.inr (Or.inr (h0 hskip (by simp [hp]))))
    show scan_existing_outputs (scanStep jobs d0) rest = jobs
    rw [hid]
    exact ih jobs (fun d hm => h d (List.mem_cons_of_mem _ hm))

theorem scanStep_preserves_record (jobs : JobsMap) (d : ScanDir) (k : String)
    (r2 : JobRecord) (h : alookup jobs k = some r2) :
    ∃ r3, alookup (scanStep jobs d) k = some r3 ∧ r3.status = r2.status ∧
      r3.progress = r2.progress ∧ r3.user = r2.user ∧ r3.created_at = r2.created_at ∧
      r3.display_name = r2.display_name := by
  unfold scanStep
  by_cases hskip : scanSkipDir d = true
  · exact ⟨r2, by simpa [hskip] using h, rfl, rfl, rfl, rfl, rfl⟩
  · simp only [Bool.not_eq_true] at hskip
    by_cases hhs : hasStemsB jobs d.name = true
    · exact ⟨r2, by simpa [hskip, hhs] using h, rfl, rfl, rfl, rfl, rfl⟩
    · simp only [Bool.not_eq_true] at hhs
      simp only [hskip, hhs, Bool.false_eq_true, if_false]
      cases hp : scanProduce d with
      | none => exact ⟨r2, h, rfl, rfl, rfl, rfl, rfl⟩
      | some pr =>
        obtain ⟨stems, b⟩ := pr
        by_cases hdk : d.name = k
        · subst hdk
          rw [h]
          refine ⟨scanUpdateRec r2 d stems, alookup_aset _ _ _, ?_, ?_, ?_, ?_, ?_⟩ <;>
            · unfold scanUpdateRec
              by_cases hyt : pyTruthyStr (d.meta.bind (·.youtube_video_id)) = true <;>
                simp [hyt]
        · cases hl : alookup jobs d.name with
          | some r4 =>
            exact ⟨r2, by rw [alookup_aset_ne _ _ _ _ hdk]; exact h, rfl, rfl, rfl, rfl, rfl⟩
          | none =>
            exact ⟨r2, by rw [alookup_aset_ne _ _ _ _ hdk]; exact h, rfl, rfl, rfl, rfl, rfl⟩

theorem scan_preserves_record : ∀ (dirs : List ScanDir) (jobs : JobsMap) (k : String)
    (r2 : JobRecord), alookup jobs k = some r2 →
    ∃ r3, alookup (scan_existing_outputs jobs dirs) k = some r3 ∧ r3.status = r2.status ∧
      r3.progress = r2.progress ∧ r3.user = r2.user ∧ r3.created_at = r2.created_at ∧
      r3.display_name = r2.display_name := by
  intro dirs
  induction dirs with
  | nil => intro jobs k r2 h; exact ⟨r2, h, rfl, rfl, rfl, rfl, rfl⟩
  | cons d0 rest ih =>
    intro jobs k r2 h
    obtain ⟨r3, h3, e1, e2, e3, e4, e5⟩ := scanStep_preserves_record jobs d0 k r2 h
    obtain ⟨r4, h4, f1, f2, f3, f4, f5⟩ := ih (scanStep jobs d0) k r3 h3
    exact ⟨r4, h4, f1.trans e1, f2.trans e2, f3.trans e3, f4.trans e4, f5.trans e5⟩

/-! ## Claim C8: scanner idempotence and non-overwrite -/

/-- Claim C8: a second scan over the same filesystem state changes
nothing (the registry map is keyed, so there are no duplicates), and the
scan never replaces an existing record — for every record already in the
registry, whatever its status, the scan preserves its status, progress,
owner, creation time and display name (it only enriches stems, the lyrics
flag and the video id). -/
theorem C8_scanner_idempotence_no_overwrite :
    (∀ (jobs : JobsMap) (dirs : List ScanDir),
      scan_existing_outputs (scan_existing_outputs jobs dirs) dirs
        = scan_existing_outputs jobs dirs) ∧
    (∀ (dirs : List ScanDir) (jobs : JobsMap) (k : String) (r2 : JobRecord),
      alookup jobs k = some r2 →
      ∃ r3, alookup (scan_existing_outputs jobs dirs) k = some r3 ∧
        r3.status = r2.status ∧ r3.progress = r2.progress ∧ r3.user = r2.user ∧
        r3.created_at = r2.created_at ∧ r3.display_name = r2.display_name) := by
  constructor
  · intro jobs dirs
    apply scan_identity_of_settled
    intro d hm hskip hpr
    cases hp : scanProduce d with
    | none => exact absurd hp hpr
    | some pr => exact scan_settles dirs jobs d hm hskip ⟨pr, hp⟩
  · exact scan_preserves_record

/-- Concrete run of the scanner theorem: an in-flight record keeps its
`processing` status across a scan that finds its stem files, and scanning
that state again is a no-op. -/
theorem C8_scanner_idempotence_no_overwrite_witness :
    (alookup (scan_existing_outputs
        [("j1", ({ status := "processing", user := some "alice" } : JobRecord))]
        [{ name := "j1", path := "/data/outputs/users/alice/j1",
           files := [⟨"Song_vocals", "mp3"⟩, ⟨"Song_drums", "mp3"⟩], mtime := 10 },
         { name := "j2", path := "/data/outputs/users/bob/j2",
           files := [⟨"Tune_vocals", "mp3"⟩], mtime := 11 }]) "j1").map (·.status)
      = some "processing" ∧
    scan_existing_outputs
        (scan_existing_outputs
          [("j1", ({ status := "processing", user := some "alice" } : JobRecord))]
          [{ name := "j1", path := "/data/outputs/users/alice/j1",
             files := [⟨"Song_vocals", "mp3"⟩, ⟨"Song_drums", "mp3"⟩], mtime := 10 },
           { name := "j2", path := "/data/outputs/users/bob/j2",
             files := [⟨"Tune_vocals", "mp3"⟩], mtime := 11 }])
        [{ name := "j1", path := "/data/outputs/users/alice/j1",
           files := [⟨"Song_vocals", "mp3"⟩, ⟨"Song_drums", "mp3"⟩], mtime := 10 },
         { name := "j2", path := "/data/outputs/users/bob/j2",
           files := [⟨"Tune_vocals", "mp3"⟩], mtime := 11 }]
      = scan_existing_outputs
        [("j1", ({ status := "processing", user := some "alice" } : JobRecord))]
        [{ name := "j1", path := "/data/outputs/users/alice/j1",
           files := [⟨"Song_vocals", "mp3"⟩, ⟨"Song_drums", "mp3"⟩], mtime := 10 },
         { name := "j2", path := "/data/outputs/users/bob/j2",
           files := [⟨"Tune_vocals", "mp3"⟩], mtime := 11 }] := by
  constructor
  · obtain ⟨r3, h1, h2, _⟩ := C8_scanner_idempotence_no_overwrite.2
      [{ name := "j1", path := "/data/outputs/users/alice/j1",
         files := [⟨"Song_vocals", "mp3"⟩, ⟨"Song_drums", "mp3"⟩], mtime := 10 },
       { name := "j2", path := "/data/outputs/users/bob/j2",
         files := [⟨"Tune_vocals", "mp3"⟩], mtime := 11 }]
      [("j1", ({ status := "processing", user := some "alice" } : JobRecord))]
      "j1" { status := "processing", user := some "alice" } rfl
    rw [h1]
    simp [h2]
  · exact C8_scanner_idempotence_no_overwrite.1 _ _

/-! ## Claim C6: cancellation checkpoints and terminal states -/

/-- Claim C6 is right about the design but the code breaks it at the
first checkpoint: a cancellation flag observed before the download raises
`Job cancelled by admin`, yet the wrapper's `except` arm marks the job
`failed` (with that very message as the error), not `cancelled`; the
checkpoints inside `process_downloaded_audio` do produce `cancelled`. -/
theorem C6_cancel_at_first_checkpoint_marks_failed :
    statusesOf (download_and_process_url { cancelAtStart := true }
        { status := "downloading" } 0) = ["failed"] ∧
    (download_and_process_url { cancelAtStart := true }
        { status := "downloading" } 0).map (·.error)
      = [some "Job cancelled by admin"] ∧
    finalStatusOf (download_and_process_url { cancelBeforeAnalysis := true }
        { status := "downloading" } 0) = some "cancelled" := by
  refine ⟨rfl, rfl, rfl⟩

/-! ## Claim C9: analysis failures never fail the job -/

/-- Claim C9: when no cancellation lands at a checkpoint and the download
succeeded, a failing music analysis still lets the job reach the
`processing` stage, leaves the final status exactly what it would have
been with a successful analysis (`completed` when the separation
completes), and introduces a `failed` status in no run that would not
have had one anyway. -/
theorem C9_analysis_failure_ignored (env : PipelineEnv) (r0 : JobRecord) (now : Nat)
    (h1 : env.cancelAtStart = false) (h2 : env.downloadOk = true)
    (h3 : env.cancelBeforeAnalysis = false) (h4 : env.cancelBeforeSeparation = false)
    (h5 : r0.status = "downloading") :
    "processing" ∈ statusesOf
        (download_and_process_url { env with analysisOk := false } r0 now) ∧
    finalStatusOf (download_and_process_url { env with analysisOk := false } r0 now)
      = finalStatusOf (download_and_process_url { env with analysisOk := true } r0 now) ∧
    ("failed" ∈ statusesOf (download_and_process_url { env with analysisOk := false } r0 now) ↔
      "failed" ∈ statusesOf (download_and_process_url { env with analysisOk := true } r0 now)) ∧
    (env.sepCompleted = true →
      finalStatusOf (download_and_process_url { env with analysisOk := false } r0 now)
        = some "completed") := by
  cases hsc : env.sepCompleted with
  | true =>
    simp [download_and_process_url, process_downloaded_audio, statusesOf, finalStatusOf,
      h1, h2, h3, h4, h5, hsc]
  | false =>
    cases hcc : strContainsSub (strLower env.sepError) "cancelled" with
    | true =>
      simp [download_and_process_url, process_downloaded_audio, statusesOf, finalStatusOf,
        h1, h2, h3, h4, h5, hsc, hcc]
    | false =>
      simp [download_and_process_url, process_downloaded_audio, statusesOf, finalStatusOf,
        h1, h2, h3, h4, h5, hsc, hcc]

/-- Concrete run of the analysis-robustness theorem: a failed analysis
with a successful separation still completes. -/
theorem C9_analysis_failure_ignored_witness :
    finalStatusOf (download_and_process_url { analysisOk := false }
        { status := "downloading" } 4) = some "completed" := by
  have h := C9_analysis_failure_ignored { analysisOk := false }
    { status := "downloading" } 4 rfl rfl rfl rfl rfl
  exact h.2.2.2 rfl

/-! ## Claim C4: ownership isolation -/

/-- Claim C4, as stated, is false: a non-owner, non-admin caller asking
for a job that does not exist receives `NotFound` (404) from both the
status query and the delete endpoint, not the same `PermissionDenied`
(403) an existing foreign job would produce. -/
theorem C4_counterexample :
    get_status [] (some "mallory") (some "user") "nojob"
      = ApiResult.notFound "Job not found" ∧
    get_status [] (some "mallory") (some "user") "nojob"
      ≠ ApiResult.denied "Access denied" ∧
    (delete_job emptyFS [] (some "mallory") (some "user") "nojob" 0).1
      = ApiResult.notFound "Job not found" := by
  refine ⟨rfl, by decide, rfl⟩

/-- Claim C4 (amended): for a non-admin caller, querying or deleting a
missing job returns `NotFound`, while an existing job owned by someone
else returns `PermissionDenied`; only the cancel endpoint answers
`PermissionDenied` uniformly, because it checks the role before looking
the job up. -/
theorem C4_ownership_isolation_amended (jobs : JobsMap) (flags : List (String × Bool))
    (fs : LibFS) (su role : Option String) (jobId : String) (now : Nat)
    (hrole : role ≠ some "admin") :
    (alookup jobs jobId = none →
      get_status jobs su role jobId = ApiResult.notFound "Job not found" ∧
      (delete_job fs jobs su role jobId now).1 = ApiResult.notFound "Job not found") ∧
    (∀ job, alookup jobs jobId = some job → job.user ≠ su →
      get_status jobs su role jobId = ApiResult.denied "Access denied" ∧
      (delete_job fs jobs su role jobId now).1 = ApiResult.denied "Access denied") ∧
    (cancel_job jobs flags role jobId).1 = ApiResult.denied "Admin access required" := by
  refine ⟨?_, ?_, ?_⟩
  · intro h
    exact ⟨by simp [get_status, h], by simp [delete_job, h]⟩
  · intro job hj hu
    constructor
    · simp [get_status, hj, hrole, hu]
    · simp [delete_job, hj, hrole, hu]
  · simp [cancel_job, hrole]

/-- Concrete runs of the amended ownership isolation: a foreign caller
gets 403 on an existing job and 404 on a missing one. -/
theorem C4_ownership_isolation_amended_witness :
    get_status [("job9", ({ user := some "alice" } : JobRecord))] (some "bob") (some "user")
        "job9" = ApiResult.denied "Access denied" ∧
    get_status [("job9", ({ user := some "alice" } : JobRecord))] (some "bob") (some "user")
        "missing" = ApiResult.notFound "Job not found" ∧
    (cancel_job [("job9", ({ user := some "alice" } : JobRecord))] [] (some "user") "job9").1
      = ApiResult.denied "Admin access required" := by
  have h := C4_ownership_isolation_amended
    [("job9", ({ user := some "alice" } : JobRecord))] [] emptyFS (some "bob") (some "user")
    "job9" 0 (by decide)
  have h2 := C4_ownership_isolation_amended
    [("job9", ({ user := some "alice" } : JobRecord))] [] emptyFS (some "bob") (some "user")
    "missing" 0 (by decide)
  exact ⟨(h.2.1 _ rfl (by decide)).1, (h2.1 rfl).1, h.2.2⟩

/-! ## Claim C5: deleting a library-backed job -/

/-- Claim C5, as stated, is false twice over: deleting a library-backed
job passes the content id where `unlink_from_user_library` expects the
job id, so the link survives and `usage_count` stays at `1` instead of
dropping to `0`; and when the (unchanged) count already is `0`, the
deletion itself immediately archives the entry instead of leaving it
`Active` for an explicit admin `Archive`. -/
theorem C5_counterexample :
    get_library_usage
        (delete_job
          (link_to_user_library (create_library_entry emptyFS "vid00000001" none none none 0)
            "alice" "vid00000001" "jobA" none none none none 1).1
          [("jobA", ({ user := some "alice", youtube_video_id := some "vid00000001",
                       is_library_link := true, status := "completed" } : JobRecord))]
          (some "alice") (some "user") "jobA" 2).2.1 "vid00000001" = 1 ∧
    alookup (load_user_links
        (delete_job
          (link_to_user_library (create_library_entry emptyFS "vid00000001" none none none 0)
            "alice" "vid00000001" "jobA" none none none none 1).1
          [("jobA", ({ user := some "alice", youtube_video_id := some "vid00000001",
                       is_library_link := true, status := "completed" } : JobRecord))]
          (some "alice") (some "user") "jobA" 2).2.1 "alice" 2).links "jobA" ≠ none ∧
    alookup
        (delete_job (create_library_entry emptyFS "vid00000002" none none none 0)
          [("jobB", ({ user := some "bob", youtube_video_id := some "vid00000002",
                       is_library_link := true, status := "completed" } : JobRecord))]
          (some "bob") (some "user") "jobB" 3).2.1.lib "vid00000002" = none := by
  refine ⟨rfl, by decide, rfl⟩

/-- Claim C5 (amended): deleting a library-backed job removes the record
and answers `ok`, but — because the content id is passed in place of the
job id — the user-library link keyed by the job id survives, no usage
count is decremented, and the user link files are untouched; when the
(unchanged) usage count is zero and the entry exists, the deletion itself
archives the entry; when the count is nonzero the library state is
untouched. -/
theorem C5_delete_library_backed_amended (fs : LibFS) (jobs : JobsMap)
    (jobId vid : String) (job : JobRecord) (owner : String) (now : Nat)
    (hj : alookup jobs jobId = some job)
    (hown : job.user = some owner)
    (hvid : job.youtube_video_id = some vid) (hvne : vid ≠ "")
    (hnolink : alookup (load_user_links fs owner now).links vid = none) :
    (delete_job fs jobs job.user none jobId now).1 = ApiResult.ok ∧
    alookup (delete_job fs jobs job.user none jobId now).2.2 jobId = none ∧
    get_library_usage (delete_job fs jobs job.user none jobId now).2.1 vid
      = get_library_usage fs vid ∧
    (delete_job fs jobs job.user none jobId now).2.1.users = fs.users ∧
    (get_library_usage fs vid = 0 →
      alookup (delete_job fs jobs job.user none jobId now).2.1.lib vid = none ∧
      ((alookup fs.lib vid).isSome = true →
        ∃ dd, (delete_job fs jobs job.user none jobId now).2.1.archive
          = (now, vid, dd) :: fs.archive)) ∧
    (get_library_usage fs vid ≠ 0 →
      (delete_job fs jobs job.user none jobId now).2.1 = fs) := by
  have hauth : ¬(job.user ≠ some "admin" ∨ True) ∨ True := Or.inr trivial
  have hunlink : unlink_from_user_library fs owner vid now = (fs, none) := by
    simp [unlink_from_user_library, hnolink]
  have hstep : delete_job fs jobs job.user none jobId now
      = (ApiResult.ok,
         if get_library_usage fs vid = 0 then
           (archive_library_item fs vid "user_deleted" now).1
         else fs,
         aerase jobs jobId) := by
    simp only [delete_job, hj]
    rw [if_neg (by simp)]
    simp only [hvid, hown]
    rw [if_pos (by simp [hvne])]
    rw [hunlink]
  rw [hstep]
  refine ⟨rfl, alookup_aerase_self _ _, ?_, ?_, ?_, ?_⟩
  · by_cases hz : get_library_usage fs vid = 0
    · rw [if_pos hz]
      cases hd : alookup fs.lib vid with
      | none => simp [archive_library_item, hd]
      | some dir =>
        have hblocked : (match dir.meta with
            | some m => decide (0 < m.usage_count.getD 0)
            | none => false) = false := by
          cases hm : dir.meta with
          | none => rfl
          | some m =>
            have : m.usage_count.getD 0 = 0 := by
              simpa [get_library_usage, get_library_metadata, hd, hm] using hz
            simp [this]
        have harch : alookup ((archive_library_item fs vid "user_deleted" now).1).lib vid
            = none := by
          simp [archive_library_item, hd, hblocked, alookup_aerase_self]
        have h1 : get_library_usage (archive_library_item fs vid "user_deleted" now).1 vid
            = 0 := by
          simp [get_library_usage, get_library_metadata, harch]
        show get_library_usage (archive_library_item fs vid "user_deleted" now).1 vid
          = get_library_usage fs vid
        rw [h1, hz]
    · rw [if_neg hz]
  · by_cases hz : get_library_usage fs vid = 0
    · rw [if_pos hz]
      cases hd : alookup fs.lib vid with
      | none => simp [archive_library_item, hd]
      | some dir =>
        have hblocked : (match dir.meta with
            | some m => decide (0 < m.usage_count.getD 0)
            | none => false) = false := by
          cases hm : dir.meta with
          | none => rfl
          | some m =>
            have : m.usage_count.getD 0 = 0 := by
              simpa [get_library_usage, get_library_metadata, hd, hm] using hz
            simp [this]
        simp [archive_library_item, hd, hblocked]
    · rw [if_neg hz]
  · intro hz
    rw [if_pos hz]
    cases hd : alookup fs.lib vid with
    | none => exact ⟨by simp [archive_library_item, hd], by intro how; simp [hd] at how⟩
    | some dir =>
      have hblocked : (match dir.meta with
          | some m => decide (0 < m.usage_count.getD 0)
          | none => false) = false := by
        cases hm : dir.meta with
        | none => rfl
        | some m =>
          have : m.usage_count.getD 0 = 0 := by
            simpa [get_library_usage, get_library_metadata, hd, hm] using hz
          simp [this]
      constructor
      · simp [archive_library_item, hd, hblocked, alookup_aerase_self]
      · intro _
        cases hm : dir.meta with
        | none =>
          exact ⟨dir, by simp [archive_library_item, hd, hblocked, hm]⟩
        | some m =>
          have hcount : m.usage_count.getD 0 = 0 := by
            simpa [get_library_usage, get_library_metadata, hd, hm] using hz
          exact ⟨{ dir with meta := some { m with archived_at := some now,
                                                  archive_reason := some "user_deleted" } },
            by simp [archive_library_item, hd, hm, hcount]⟩
  · intro hz
    rw [if_neg hz]

/-- Concrete run of the amended delete behaviour: the usage count stays
at `1` after the owner deletes their library-backed job. -/
theorem C5_delete_library_backed_amended_witness :
    get_library_usage
        (delete_job
          (link_to_user_library (create_library_entry emptyFS "vid00000001" none none none 0)
            "alice" "vid00000001" "jobA" none none none none 1).1
          [("jobA", ({ user := some "alice", youtube_video_id := some "vid00000001",
                       is_library_link := true, status := "completed" } : JobRecord))]
          (some "alice") none "jobA" 2).2.1 "vid00000001"
      = get_library_usage
          (link_to_user_library (create_library_entry emptyFS "vid00000001" none none none 0)
            "alice" "vid00000001" "jobA" none none none none 1).1 "vid00000001" := by
  have h := C5_delete_library_backed_amended
    (link_to_user_library (create_library_entry emptyFS "vid00000001" none none none 0)
      "alice" "vid00000001" "jobA" none none none none 1).1
    [("jobA", ({ user := some "alice", youtube_video_id := some "vid00000001",
                 is_library_link := true, status := "completed" } : JobRecord))]
    "jobA" "vid00000001"
    ({ user := some "alice", youtube_video_id := some "vid00000001",
       is_library_link := true, status := "completed" } : JobRecord)
    "alice" 2 rfl rfl rfl (by decide) (by decide)
  exact h.2.2.1

/-! ## Claim C2: the library short-circuit on submit -/

theorem update_library_usage_users (fs : LibFS) (id : String) (inc : Bool) (now : Nat) :
    (update_library_usage fs id inc now).1.users = fs.users := by
  unfold update_library_usage
  cases alookup fs.lib id <;> rfl

theorem check_hit_dir_isSome (fs : LibFS) (vid : String) (meta : LibMeta)
    (h : check_library_exists fs vid = some meta) : (alookup fs.lib vid).isSome = true := by
  unfold check_library_exists at h
  cases hd : alookup fs.lib vid with
  | none => rw [hd] at h; simp at h
  | some dir => simp

theorem link_records_link (fs : LibFS) (u ytid jid : String) (dn su' q' m' : Option String)
    (now : Nat) :
    alookup (load_user_links
      (link_to_user_library fs u ytid jid dn su' q' m' now).1 u now).links jid ≠ none := by
  simp only [link_to_user_library, load_user_links, update_library_usage_users,
    save_user_links, alookup_aset]
  simp [alookup_aset]

/-- Claim C2, as stated, is false in its second half: an entry whose
folder holds only a `vocals` stem (no `instrumental`, so not even the
minimum stem set, let alone all stems the request's config needs) is
still a lookup hit and short-circuits the submission — the guard only
needs one of the two names and never consults the request's config. -/
theorem C2_counterexample :
    isInstantResult (upload_from_url
        (write_stem_file (create_library_entry emptyFS "abcdefghijk" none none none 0)
          "abcdefghijk" ⟨"song", "vocals", "mp3"⟩)
        [] (some "alice") (some "free") true
        "https://youtube.com/watch?v=abcdefghijk" "balanced" "grouped" "" false "j1" 7)
      = true ∧
    alookup (get_library_stems
        (write_stem_file (create_library_entry emptyFS "abcdefghijk" none none none 0)
          "abcdefghijk" ⟨"song", "vocals", "mp3"⟩) "abcdefghijk") "instrumental" = none := by
  exact ⟨rfl, rfl⟩

/-- Claim C2 (amended): whenever the URL canonicalises to a content id
whose lookup hits (entry in the active library with metadata and at least
one `instrumental`/`vocals` stem on disk — regardless of the request's
config), `Submit` returns instantly: the job record is created directly
as `completed` with the entry's stems, the submitting owner is linked
(usage count incremented by one) when logged in, and no worker — hence no
engine work — is started; the hit decision is independent of quality,
mode, output name, preview flag and plan limit. -/
theorem C2_submit_library_hit_amended (fs : LibFS) (jobs : JobsMap)
    (su splan : Option String) (ua : Bool) (url quality mode outputName : String)
    (preview : Bool) (jid : String) (now : Nat) (vid : String) (meta : LibMeta)
    (hurl : url ≠ "") (hsup : supported_url url = true)
    (hex : extract_youtube_id url = some vid)
    (hhit : check_library_exists fs vid = some meta) :
    upload_from_url fs jobs su splan ua url quality mode outputName preview jid now
      = UploadResult.instant
          (match su with
           | some u => (link_to_user_library fs u vid jid
               (some (meta.display_name.getD (meta.title.getD "Unknown")))
               (some url) (some quality) (some mode) now).1
           | none => fs)
          (aset jobs jid (libraryHitRecord fs su splan url quality mode jid vid meta now))
          jid ∧
    (libraryHitRecord fs su splan url quality mode jid vid meta now).status = "completed" ∧
    (libraryHitRecord fs su splan url quality mode jid vid meta now).progress = 100 ∧
    (libraryHitRecord fs su splan url quality mode jid vid meta now).stems
      = (get_library_stems fs vid).map (fun p => (p.1, "/library/" ++ vid ++ "/" ++ p.1)) ∧
    (libraryHitRecord fs su splan url quality mode jid vid meta now).user = su ∧
    (∀ u, su = some u →
      get_library_usage ((link_to_user_library fs u vid jid
          (some (meta.display_name.getD (meta.title.getD "Unknown")))
          (some url) (some quality) (some mode) now).1) vid
        = get_library_usage fs vid + 1 ∧
      alookup (load_user_links ((link_to_user_library fs u vid jid
          (some (meta.display_name.getD (meta.title.getD "Unknown")))
          (some url) (some quality) (some mode) now).1) u now).links jid ≠ none) ∧
    (∀ ua' q' m' on' pv',
      isInstantResult (upload_from_url fs jobs su splan ua' url q' m' on' pv' jid now)
        = true) := by
  refine ⟨?_, rfl, rfl, rfl, rfl, ?_, ?_⟩
  · cases su with
    | none => simp [upload_from_url, hurl, hsup, hex, hhit]
    | some u => simp [upload_from_url, hurl, hsup, hex, hhit]
  · intro u hu
    exact ⟨link_usage_step fs u vid jid _ _ _ _ now (check_hit_dir_isSome fs vid meta hhit),
      link_records_link fs u vid jid _ _ _ _ now⟩
  · intro ua' q' m' on' pv'
    cases su with
    | none => simp [upload_from_url, hurl, hsup, hex, hhit, isInstantResult]
    | some u => simp [upload_from_url, hurl, hsup, hex, hhit, isInstantResult]

/-- Concrete run of the library short-circuit: a request against an entry
with a vocals stem comes back instant, and the linked user's usage count
went from zero to one. -/
theorem C2_submit_library_hit_amended_witness :
    isInstantResult (upload_from_url
        (write_stem_file (create_library_entry emptyFS "abcdefghijk" none none none 0)
          "abcdefghijk" ⟨"song", "vocals", "mp3"⟩)
        [] (some "bob") (some "free") true
        "https://youtube.com/watch?v=abcdefghijk" "fast" "solo" "mix" true "j2" 9)
      = true ∧
    get_library_usage ((link_to_user_library
        (write_stem_file (create_library_entry emptyFS "abcdefghijk" none none none 0)
          "abcdefghijk" ⟨"song", "vocals", "mp3"⟩)
        "bob" "abcdefghijk" "j2" (some "Unknown")
        (some "https://youtube.com/watch?v=abcdefghijk") (some "fast") (some "solo") 9).1)
        "abcdefghijk" = 1 := by
  have h := C2_submit_library_hit_amended
    (write_stem_file (create_library_entry emptyFS "abcdefghijk" none none none 0)
      "abcdefghijk" ⟨"song", "vocals", "mp3"⟩)
    [] (some "bob") (some "free") true
    "https://youtube.com/watch?v=abcdefghijk" "fast" "solo" "mix" true "j2" 9
    "abcdefghijk"
    { youtube_id := some "abcdefghijk", created_at := some 0, usage_count := some 0 }
    (by decide) rfl rfl rfl
  constructor
  · rw [h.1]
    rfl
  · have h6 := (h.2.2.2.2.2.1 "bob" rfl).1
    simpa using h6

end Harmonix
